import Mathlib

/-!
Shallow embedding of the population-within-buffer raster aggregation routine
`pop_within_buffer` (src/fu_population.py, lines 14-61).

Modelling choices:
* Python floats are modelled as exact rationals `ℚ`; the special IEEE values
  NaN, +inf, -inf that can occur in raster grids are modelled by the `Val`
  wrapper, with numpy's comparison semantics spelled out per operation.
* A raster tile (`rasterio.open` result) is a `Tile`: an optional CRS, the
  spatial bounds `left/bottom/right/top`, the grid as a list of cells (each a
  spatial rectangle from the affine transform, carrying its stored value), an
  optional declared nodata sentinel, and the pyproj transformer
  `Transformer.from_crs("EPSG:4326", raster_crs, always_xy=True)` as the
  function `tx : lon → lat → (x, y)` (the transformer is determined by the
  tile's CRS, so it travels with the tile).
* `shapely Point(x, y).buffer(r)` is the disk of radius `r` at `(x, y)`; its
  `bounds` are `(x - r, y - r, x + r, y + r)`.
* `rasterio.mask.mask(src, [geom], crop=True, all_touched=True, filled=True)`
  is modelled by `clipWindow`: the crop window keeps the cells whose rectangle
  meets the geometry's bounding box; inside the window a cell keeps its value
  when the disk touches its rectangle (all_touched rasterization) and is
  otherwise filled with the tile's nodata value (0.0 when the tile declares
  none, rasterio's default fill).  `mask` raises
  `ValueError("Input shapes do not overlap raster.")` exactly when the
  geometry's bounding box does not properly overlap the raster bounds (its
  pixel window is empty); the caller catches this and skips the tile.
* Opening a tile path either yields a `Tile` or fails; the spec names the
  propagated open failure `TileOpenError`, the missing-CRS `ValueError`
  `MissingCRSError`, and the final `ValueError` (line 59) `NoOverlapError`.
-/

namespace FuPop

/-- A raster cell value as numpy reads it: a finite rational, NaN, or ±∞. -/
inductive Val where
  | num (q : ℚ)
  | nan
  | inf
  | ninf
deriving DecidableEq

namespace Val

/-- numpy elementwise `data != nodata` against a rational nodata sentinel:
NaN and both infinities compare unequal to every rational. -/
def npNe (v : Val) (nodata : ℚ) : Bool :=
  match v with
  | .num q => decide (q ≠ nodata)
  | _ => true

/-- numpy `np.isfinite(data)`. -/
def npIsfinite : Val → Bool
  | .num _ => true
  | _ => false

/-- numpy elementwise `data >= 0`: false for NaN and -∞, true for +∞. -/
def npGe0 : Val → Bool
  | .num q => decide (0 ≤ q)
  | .inf => true
  | _ => false

/-- The rational content of a value (0 for the non-finite values; only read
on values that passed the `np.isfinite` test). -/
def toQ : Val → ℚ
  | .num q => q
  | _ => 0

end Val

/-- One grid cell of a raster tile: the spatial rectangle
`[x0, x1] × [y0, y1]` the affine transform assigns to it, and its value. -/
structure Cell where
  x0 : ℚ
  y0 : ℚ
  x1 : ℚ
  y1 : ℚ
  val : Val

/-- A cell is a proper rectangle (always true of cells produced by a raster's
affine transform). -/
def Cell.wf (c : Cell) : Prop := c.x0 ≤ c.x1 ∧ c.y0 ≤ c.y1

/-- A raster tile as `rasterio.open` exposes it (src/fu_population.py uses
`src.crs`, `src.bounds`, `src.nodata` and the band-1 grid). -/
structure Tile where
  crs : Option String
  left : ℚ
  bottom : ℚ
  right : ℚ
  top : ℚ
  cells : List Cell
  nodata : Option ℚ
  tx : ℚ → ℚ → ℚ × ℚ

/-- All cells of the tile are proper rectangles. -/
def Tile.wf (t : Tile) : Prop := ∀ c ∈ t.cells, c.wf

/-- The spec's names for the three failures `pop_within_buffer` can raise
(lines 24, 27 and 59 of src/fu_population.py). -/
inductive AggError where
  | tileOpenError
  | missingCRSError
  | noOverlapError
deriving DecidableEq

/-- Result of `rasterio.open(tif_path)` on one path of `tif_paths`. -/
inductive OpenResult where
  | ok (t : Tile)
  | openFail

/-- Clamp `v` into `[lo, hi]`. -/
def clampQ (v lo hi : ℚ) : ℚ := max lo (min v hi)

/-- All-touched coverage test: the disk `Point(x, y).buffer(r)` touches the
cell's rectangle iff the distance from the center to the rectangle is at
most `r` (squared form, division-free). -/
def cellCovered (cx cy r : ℚ) (c : Cell) : Bool :=
  let px := clampQ cx c.x0 c.x1
  let py := clampQ cy c.y0 c.y1
  decide ((cx - px) ^ 2 + (cy - py) ^ 2 ≤ r ^ 2)

/-- Membership in the crop window of `mask(..., crop=True)`: the cell's
rectangle meets the geometry's axis-aligned bounding box
`[minx, maxx] × [miny, maxy]`. -/
def inWindow (minx miny maxx maxy : ℚ) (c : Cell) : Bool :=
  decide (c.x0 ≤ maxx) && decide (minx ≤ c.x1) &&
    decide (c.y0 ≤ maxy) && decide (miny ≤ c.y1)

/-- `filled=True`: window cells outside the rasterized geometry are filled
with the tile's nodata value, or with rasterio's default fill 0.0 when the
tile declares no nodata. -/
def fillVal (t : Tile) : Val := .num (t.nodata.getD 0)

/-- The band-1 window `out_img[0]` returned by
`mask(src, [mapping(geom)], crop=True, all_touched=True, filled=True)` for
the disk of radius `r` centered at `(cx, cy)`. -/
def clipWindow (t : Tile) (cx cy r : ℚ) : List Val :=
  (t.cells.filter (inWindow (cx - r) (cy - r) (cx + r) (cy + r))).map
    (fun c => if cellCovered cx cy r c then c.val else fillVal t)

/-- Line 54: `nodata = src.nodata if src.nodata is not None else -200.0`. -/
def effNodata (t : Tile) : ℚ := t.nodata.getD (-200)

/-- Line 55: `valid = (data != nodata) & np.isfinite(data) & (data >= 0)`. -/
def validCell (nodata : ℚ) (v : Val) : Bool :=
  v.npNe nodata && v.npIsfinite && v.npGe0

/-- Line 56: `float(data[valid].sum())`. -/
def maskedSum (nodata : ℚ) (data : List Val) : ℚ :=
  ((data.filter (validCell nodata)).map Val.toQ).sum

/-- The amount lines 54-56 add to `total_pop` for one successfully clipped
tile. -/
def tileSum (t : Tile) (cx cy r : ℚ) : ℚ :=
  maskedSum (effNodata t) (clipWindow t cx cy r)

/-- One iteration of the `for tif_path in tif_paths` loop body
(lines 23-56): open failure propagates (`TileOpenError`), a missing CRS
raises (`MissingCRSError`), a strictly disjoint bounding box `continue`s
(lines 34-37), a `ValueError` from `mask` `continue`s (lines 39-49), and
otherwise the clip succeeds with the tile's masked sum.  `.ok none` is a
skipped tile, `.ok (some s)` a successful clip contributing `s`. -/
def tileStep (p : OpenResult) (lat lon buffer_m : ℚ) : Except AggError (Option ℚ) :=
  match p with
  | .openFail => .error .tileOpenError
  | .ok t =>
    match t.crs with
    | none => .error .missingCRSError
    | some _ =>
      let xy := t.tx lon lat
      let x := xy.1
      let y := xy.2
      if x + buffer_m < t.left ∨ x - buffer_m > t.right ∨
          y + buffer_m < t.bottom ∨ y - buffer_m > t.top then
        .ok none
      else if x + buffer_m ≤ t.left ∨ x - buffer_m ≥ t.right ∨
          y + buffer_m ≤ t.bottom ∨ y - buffer_m ≥ t.top then
        .ok none
      else
        .ok (some (tileSum t x y buffer_m))

/-- The loop of lines 20-56, carrying the accumulator `total_pop` and the
`any_overlap` flag. -/
def popGo (lat lon buffer_m : ℚ) :
    List OpenResult → ℚ → Bool → Except AggError (ℚ × Bool)
  | [], acc, flag => .ok (acc, flag)
  | p :: rest, acc, flag =>
    match tileStep p lat lon buffer_m with
    | .error e => .error e
    | .ok none => popGo lat lon buffer_m rest acc flag
    | .ok (some s) => popGo lat lon buffer_m rest (acc + s) true

/-- `pop_within_buffer(tif_paths, lat, lon, buffer_m)` (lines 14-61): run the
loop from `total_pop = 0.0`, `any_overlap = False`; if the flag was never
set raise `NoOverlapError` (line 59), otherwise return `total_pop`. -/
def pop_within_buffer (tif_paths : List OpenResult) (lat lon buffer_m : ℚ) :
    Except AggError ℚ :=
  match popGo lat lon buffer_m tif_paths 0 false with
  | .error e => .error e
  | .ok (total, flag) => if flag then .ok total else .error .noOverlapError

/-- The loop body neither raised nor would raise on tile `p`. -/
def stepOk (lat lon buffer_m : ℚ) (p : OpenResult) : Bool :=
  match tileStep p lat lon buffer_m with
  | .ok _ => true
  | .error _ => false

/-- Tile `p` produces a successful (non-skipped) clip, i.e. it would set
`any_overlap`. -/
def clipped (lat lon buffer_m : ℚ) (p : OpenResult) : Bool :=
  match tileStep p lat lon buffer_m with
  | .ok (some _) => true
  | _ => false

/-- The amount tile `p` adds to `total_pop` (0 when skipped or fatal). -/
def contrib (lat lon buffer_m : ℚ) (p : OpenResult) : ℚ :=
  match tileStep p lat lon buffer_m with
  | .ok (some s) => s
  | _ => 0

/-- Per-cell contribution of a tile's cell to the tile's masked sum. -/
def cellContrib (t : Tile) (cx cy r : ℚ) (c : Cell) : ℚ :=
  if cellCovered cx cy r c && validCell (effNodata t) c.val then c.val.toQ else 0

/-! ### Basic facts about the validity mask and the masked sum -/

theorem validCell_toQ_nonneg (nd : ℚ) (v : Val) (h : validCell nd v = true) :
    0 ≤ v.toQ := by
  cases v with
  | num q =>
    simp only [validCell, Val.npNe, Val.npIsfinite, Val.npGe0, Bool.and_eq_true,
      decide_eq_true_eq] at h
    simpa [Val.toQ] using h.2
  | nan => simp [validCell, Val.npIsfinite] at h
  | inf => simp [validCell, Val.npIsfinite] at h
  | ninf => simp [validCell, Val.npIsfinite] at h

theorem maskedSum_cons (nd : ℚ) (v : Val) (data : List Val) :
    maskedSum nd (v :: data) =
      (if validCell nd v = true then v.toQ else 0) + maskedSum nd data := by
  by_cases h : validCell nd v = true <;> simp [maskedSum, List.filter_cons, h]

theorem maskedSum_nonneg (nd : ℚ) (data : List Val) : 0 ≤ maskedSum nd data := by
  induction data with
  | nil => simp [maskedSum]
  | cons v data ih =>
    rw [maskedSum_cons]
    by_cases h : validCell nd v = true
    · rw [if_pos h]
      exact add_nonneg (validCell_toQ_nonneg nd v h) ih
    · rw [if_neg h, zero_add]
      exact ih

theorem tileSum_nonneg (t : Tile) (cx cy r : ℚ) : 0 ≤ tileSum t cx cy r :=
  maskedSum_nonneg _ _

/-- The fill value of a window never contributes: when the tile declares a
nodata value the fill equals it and fails the mask; when it declares none the
fill is 0.0 and contributes 0. -/
theorem fill_contrib_zero (t : Tile) :
    (if validCell (effNodata t) (fillVal t) = true then (fillVal t).toQ else 0) = 0 := by
  cases hn : t.nodata with
  | none =>
    simp [fillVal, hn, Val.toQ]
  | some q =>
    simp [fillVal, effNodata, hn, validCell, Val.npNe]

/-! ### Facts about a single loop iteration -/

theorem tileStep_some_nonneg {p : OpenResult} {lat lon r s : ℚ}
    (h : tileStep p lat lon r = .ok (some s)) : 0 ≤ s := by
  cases p with
  | openFail => simp [tileStep] at h
  | ok t =>
    cases hc : t.crs with
    | none => simp [tileStep, hc] at h
    | some c0 =>
      simp only [tileStep, hc] at h
      split at h
      · simp at h
      · split at h
        · simp at h
        · simp only [Except.ok.injEq, Option.some.injEq] at h
          rw [← h]
          exact tileSum_nonneg _ _ _ _

theorem tileStep_ne_noOverlap {p : OpenResult} {lat lon r : ℚ} {e : AggError}
    (h : tileStep p lat lon r = .error e) : e ≠ AggError.noOverlapError := by
  cases p with
  | openFail =>
    simp only [tileStep, Except.error.injEq] at h
    rw [← h]
    intro hcon
    exact absurd hcon (by simp)
  | ok t =>
    cases hc : t.crs with
    | none =>
      simp only [tileStep, hc, Except.error.injEq] at h
      rw [← h]
      intro hcon
      exact absurd hcon (by simp)
    | some c0 =>
      simp only [tileStep, hc] at h
      split at h
      · simp at h
      · split at h <;> simp at h

theorem contrib_nonneg (lat lon r : ℚ) (p : OpenResult) :
    0 ≤ contrib lat lon r p := by
  unfold contrib
  cases h : tileStep p lat lon r with
  | error e => simp
  | ok o =>
    cases o with
    | none => simp
    | some s => simpa using tileStep_some_nonneg h

/-! ### Facts about the accumulation loop -/

theorem popGo_append (lat lon r : ℚ) (l1 : List OpenResult)
    (h : ∀ p ∈ l1, stepOk lat lon r p = true) :
    ∀ (rest : List OpenResult) (acc : ℚ) (flag : Bool),
      popGo lat lon r (l1 ++ rest) acc flag =
        popGo lat lon r rest (acc + (l1.map (contrib lat lon r)).sum)
          (flag || l1.any (clipped lat lon r)) := by
  induction l1 with
  | nil => intro rest acc flag; simp [popGo]
  | cons p l ih =>
    intro rest acc flag
    have hp := h p (List.mem_cons_self p l)
    have hl : ∀ q ∈ l, stepOk lat lon r q = true :=
      fun q hq => h q (List.mem_cons_of_mem p hq)
    cases hstep : tileStep p lat lon r with
    | error e => exact absurd hp (by simp [stepOk, hstep])
    | ok o =>
      cases o with
      | none =>
        have hco : contrib lat lon r p = 0 := by simp [contrib, hstep]
        have hcl : clipped lat lon r p = false := by simp [clipped, hstep]
        simp [popGo, hstep, ih hl, hco, hcl]
      | some s =>
        have hco : contrib lat lon r p = s := by simp [contrib, hstep]
        have hcl : clipped lat lon r p = true := by simp [clipped, hstep]
        simp [popGo, hstep, ih hl, hco, hcl, add_assoc]

theorem popGo_ok_forall {lat lon r : ℚ} :
    ∀ {l : List OpenResult} {acc : ℚ} {flag : Bool} {v : ℚ × Bool},
      popGo lat lon r l acc flag = .ok v → ∀ p ∈ l, stepOk lat lon r p = true := by
  intro l
  induction l with
  | nil => intro acc flag v _ p hp; simp at hp
  | cons q l ih =>
    intro acc flag v h p hp
    simp only [popGo] at h
    split at h
    · simp at h
    · rcases List.mem_cons.mp hp with rfl | hp'
      · next heq => simp [stepOk, heq]
      · exact ih h p hp'
    · rcases List.mem_cons.mp hp with rfl | hp'
      · next heq => simp [stepOk, heq]
      · exact ih h p hp'

theorem popGo_error_ne_noOverlap {lat lon r : ℚ} :
    ∀ {l : List OpenResult} {acc : ℚ} {flag : Bool} {e : AggError},
      popGo lat lon r l acc flag = .error e → e ≠ AggError.noOverlapError := by
  intro l
  induction l with
  | nil => intro acc flag e h; simp [popGo] at h
  | cons q l ih =>
    intro acc flag e h
    simp only [popGo] at h
    split at h
    · next heq =>
      simp only [Except.error.injEq] at h
      rw [← h]
      exact tileStep_ne_noOverlap heq
    · exact ih h
    · exact ih h

/-- Running the loop over tiles none of which raises yields exactly the sum
of the per-tile contributions and the OR of the per-tile overlap flags. -/
theorem popGo_spec (l : List OpenResult) (lat lon r : ℚ)
    (h : ∀ p ∈ l, stepOk lat lon r p = true) :
    popGo lat lon r l 0 false =
      .ok ((l.map (contrib lat lon r)).sum, l.any (clipped lat lon r)) := by
  have hx := popGo_append lat lon r l h [] 0 false
  rw [List.append_nil] at hx
  rw [hx]
  simp [popGo]

/-- Characterization of a successful call. -/
theorem pop_ok_iff (l : List OpenResult) (lat lon r q : ℚ) :
    pop_within_buffer l lat lon r = .ok q ↔
      (∀ p ∈ l, stepOk lat lon r p = true) ∧
        l.any (clipped lat lon r) = true ∧
        q = (l.map (contrib lat lon r)).sum := by
  constructor
  · intro h
    unfold pop_within_buffer at h
    split at h
    · simp at h
    · next total flag heq =>
      have hall := popGo_ok_forall heq
      rw [popGo_spec l lat lon r hall] at heq
      simp only [Except.ok.injEq, Prod.mk.injEq] at heq
      cases hf : flag with
      | false => rw [hf] at h; simp at h
      | true =>
        rw [hf] at h
        simp only [if_true, Except.ok.injEq] at h
        exact ⟨hall, by rw [heq.2]; exact hf, by rw [← h, ← heq.1]⟩
  · rintro ⟨hall, hany, rfl⟩
    unfold pop_within_buffer
    rw [popGo_spec l lat lon r hall, hany]
    simp

/-- Characterization of the `NoOverlapError` outcome. -/
theorem pop_noOverlap_iff (l : List OpenResult) (lat lon r : ℚ) :
    pop_within_buffer l lat lon r = .error AggError.noOverlapError ↔
      (∀ p ∈ l, stepOk lat lon r p = true) ∧
        l.any (clipped lat lon r) = false := by
  constructor
  · intro h
    unfold pop_within_buffer at h
    split at h
    · next e heq =>
      simp only [Except.error.injEq] at h
      exact absurd h (popGo_error_ne_noOverlap heq)
    · next total flag heq =>
      have hall := popGo_ok_forall heq
      rw [popGo_spec l lat lon r hall] at heq
      simp only [Except.ok.injEq, Prod.mk.injEq] at heq
      cases hf : flag with
      | true => rw [hf] at h; simp at h
      | false => exact ⟨hall, by rw [heq.2]; exact hf⟩
  · rintro ⟨hall, hany⟩
    unfold pop_within_buffer
    rw [popGo_spec l lat lon r hall, hany]
    simp

/-- Inserting a tile the loop skips (`.ok none`) anywhere in the sequence
does not change the loop's outcome. -/
theorem popGo_skip {lat lon r : ℚ} {p : OpenResult}
    (hp : tileStep p lat lon r = .ok none) :
    ∀ (l1 l2 : List OpenResult) (acc : ℚ) (flag : Bool),
      popGo lat lon r (l1 ++ p :: l2) acc flag =
        popGo lat lon r (l1 ++ l2) acc flag := by
  intro l1
  induction l1 with
  | nil => intro l2 acc flag; simp [popGo, hp]
  | cons q l ih =>
    intro l2 acc flag
    cases hq : tileStep q lat lon r with
    | error e => simp [popGo, hq]
    | ok o =>
      cases o with
      | none => simp [popGo, hq, ih]
      | some s => simp [popGo, hq, ih]

/-! ### Geometry of the all-touched clip -/

/-- A cell touched by the disk lies in the disk's crop window. -/
theorem cellCovered_inWindow {cx cy r : ℚ} {c : Cell} (hr : 0 ≤ r)
    (hwf : c.wf) (h : cellCovered cx cy r c = true) :
    inWindow (cx - r) (cy - r) (cx + r) (cy + r) c = true := by
  obtain ⟨hx, hy⟩ := hwf
  simp only [cellCovered, clampQ, decide_eq_true_eq] at h
  simp only [inWindow, Bool.and_eq_true, decide_eq_true_eq]
  set px := max c.x0 (min cx c.x1) with hpx
  set py := max c.y0 (min cy c.y1) with hpy
  have hx0 : c.x0 ≤ px := le_max_left _ _
  have hx1 : px ≤ c.x1 := max_le hx (min_le_right _ _)
  have hy0 : c.y0 ≤ py := le_max_left _ _
  have hy1 : py ≤ c.y1 := max_le hy (min_le_right _ _)
  have h1 : (cx - px) ^ 2 ≤ r ^ 2 := by nlinarith [sq_nonneg (cy - py)]
  have h2 : (cy - py) ^ 2 ≤ r ^ 2 := by nlinarith [sq_nonneg (cx - px)]
  have hxl : cx - r ≤ px := by nlinarith
  have hxr : px ≤ cx + r := by nlinarith
  have hyl : cy - r ≤ py := by nlinarith
  have hyr : py ≤ cy + r := by nlinarith
  exact ⟨⟨⟨hx0.trans hxr, hxl.trans hx1⟩, hy0.trans hyr⟩, hyl.trans hy1⟩

/-- Coverage by the disk is monotone in the radius. -/
theorem cellCovered_mono {cx cy r1 r2 : ℚ} (hr : 0 ≤ r1) (h12 : r1 ≤ r2)
    {c : Cell} (h : cellCovered cx cy r1 c = true) :
    cellCovered cx cy r2 c = true := by
  simp only [cellCovered, decide_eq_true_eq] at h ⊢
  have hsq : r1 ^ 2 ≤ r2 ^ 2 := pow_le_pow_left₀ hr h12 2
  linarith

theorem cellContrib_nonneg (t : Tile) (cx cy r : ℚ) (c : Cell) :
    0 ≤ cellContrib t cx cy r c := by
  unfold cellContrib
  split
  · next h =>
    have hv : validCell (effNodata t) c.val = true := by
      simp only [Bool.and_eq_true] at h
      exact h.2
    exact validCell_toQ_nonneg _ _ hv
  · exact le_refl 0

theorem cellContrib_mono (t : Tile) {cx cy r1 r2 : ℚ} (hr : 0 ≤ r1)
    (h12 : r1 ≤ r2) (c : Cell) :
    cellContrib t cx cy r1 c ≤ cellContrib t cx cy r2 c := by
  by_cases h1 : cellCovered cx cy r1 c = true
  · have h2 := cellCovered_mono hr h12 h1
    unfold cellContrib
    rw [h1, h2]
  · have hz : cellContrib t cx cy r1 c = 0 := by
      unfold cellContrib
      rw [Bool.not_eq_true] at h1
      rw [h1]
      simp
    rw [hz]
    exact cellContrib_nonneg t cx cy r2 c

/-- The masked sum of the clipped window decomposes cell by cell: a covered
cell contributes its value when the mask keeps it, and window cells that are
only filled contribute nothing. -/
theorem maskedSum_clipWindow (t : Tile) (cx cy r : ℚ) (hr : 0 ≤ r) :
    ∀ l : List Cell, (∀ c ∈ l, c.wf) →
      maskedSum (effNodata t)
        ((l.filter (inWindow (cx - r) (cy - r) (cx + r) (cy + r))).map
          (fun c => if cellCovered cx cy r c then c.val else fillVal t)) =
        (l.map (cellContrib t cx cy r)).sum := by
  intro l
  induction l with
  | nil => intro _; simp [maskedSum]
  | cons c l ih =>
    intro hwf
    have hc := hwf c (List.mem_cons_self c l)
    have hl : ∀ d ∈ l, d.wf := fun d hd => hwf d (List.mem_cons_of_mem c hd)
    rw [List.filter_cons]
    by_cases hW : inWindow (cx - r) (cy - r) (cx + r) (cy + r) c = true
    · rw [if_pos hW, List.map_cons, maskedSum_cons, ih hl, List.map_cons,
        List.sum_cons]
      congr 1
      by_cases hC : cellCovered cx cy r c = true
      · rw [if_pos hC]
        unfold cellContrib
        rw [hC]
        simp
      · rw [Bool.not_eq_true] at hC
        rw [hC]
        simp only [Bool.false_eq_true, if_false]
        rw [fill_contrib_zero]
        unfold cellContrib
        rw [hC]
        simp
    · rw [if_neg hW, ih hl, List.map_cons, List.sum_cons]
      have hC : cellCovered cx cy r c = false := by
        rw [← Bool.not_eq_true]
        intro hcc
        exact hW (cellCovered_inWindow hr hc hcc)
      have hz : cellContrib t cx cy r c = 0 := by
        unfold cellContrib
        rw [hC]
        simp
      rw [hz, zero_add]

theorem tileSum_eq_cells (t : Tile) (cx cy r : ℚ) (hr : 0 ≤ r) (hwf : t.wf) :
    tileSum t cx cy r = (t.cells.map (cellContrib t cx cy r)).sum :=
  maskedSum_clipWindow t cx cy r hr t.cells hwf

theorem tileSum_mono (t : Tile) {cx cy r1 r2 : ℚ} (hr : 0 ≤ r1)
    (h12 : r1 ≤ r2) (hwf : t.wf) :
    tileSum t cx cy r1 ≤ tileSum t cx cy r2 := by
  rw [tileSum_eq_cells t cx cy r1 hr hwf,
    tileSum_eq_cells t cx cy r2 (hr.trans h12) hwf]
  exact List.sum_le_sum fun c _ => cellContrib_mono t hr h12 c

/-- A closed form for the loop body on an opened tile with a CRS: the two
skip tests together amount to the geometry's bounding box properly
overlapping the raster bounds on both axes. -/
theorem tileStep_clip_iff (t : Tile) (c0 : String) (hc : t.crs = some c0)
    (lat lon r : ℚ) :
    tileStep (.ok t) lat lon r =
      (if t.left < (t.tx lon lat).1 + r ∧ (t.tx lon lat).1 - r < t.right ∧
          t.bottom < (t.tx lon lat).2 + r ∧ (t.tx lon lat).2 - r < t.top then
        .ok (some (tileSum t (t.tx lon lat).1 (t.tx lon lat).2 r))
      else .ok none) := by
  simp only [tileStep, hc]
  set x := (t.tx lon lat).1 with hxdef
  set y := (t.tx lon lat).2 with hydef
  by_cases h1 : x + r < t.left ∨ x - r > t.right ∨ y + r < t.bottom ∨ y - r > t.top
  · rw [if_pos h1, if_neg]
    rintro ⟨ha, hb, hcq, hd⟩
    rcases h1 with h | h | h | h <;> linarith
  · rw [if_neg h1]
    by_cases h2 : x + r ≤ t.left ∨ x - r ≥ t.right ∨ y + r ≤ t.bottom ∨ y - r ≥ t.top
    · rw [if_pos h2, if_neg]
      rintro ⟨ha, hb, hcq, hd⟩
      rcases h2 with h | h | h | h <;> linarith
    · rw [if_neg h2, if_pos]
      push_neg at h2
      exact ⟨by linarith [h2.1], by linarith [h2.2.1], by linarith [h2.2.2.1],
        by linarith [h2.2.2.2]⟩

/-- Per-tile contribution is monotone in the radius (for well-formed tiles):
a tile skipped at the smaller radius contributes at most what it contributes
at the larger one, and a clipped tile's masked sum only grows. -/
theorem contrib_mono (lat lon : ℚ) {r1 r2 : ℚ} (hr : 0 ≤ r1) (h12 : r1 ≤ r2)
    (p : OpenResult) (hwf : ∀ t, p = .ok t → t.wf) :
    contrib lat lon r1 p ≤ contrib lat lon r2 p := by
  cases p with
  | openFail => simp [contrib, tileStep]
  | ok t =>
    cases hc : t.crs with
    | none => simp [contrib, tileStep, hc]
    | some c0 =>
      have hwt := hwf t rfl
      rw [contrib, contrib, tileStep_clip_iff t c0 hc lat lon r1,
        tileStep_clip_iff t c0 hc lat lon r2]
      set x := (t.tx lon lat).1 with hxdef
      set y := (t.tx lon lat).2 with hydef
      by_cases h1 : t.left < x + r1 ∧ x - r1 < t.right ∧ t.bottom < y + r1 ∧
          y - r1 < t.top
      · have h2 : t.left < x + r2 ∧ x - r2 < t.right ∧ t.bottom < y + r2 ∧
            y - r2 < t.top := by
          obtain ⟨ha, hb, hcq, hd⟩ := h1
          exact ⟨by linarith, by linarith, by linarith, by linarith⟩
        rw [if_pos h1, if_pos h2]
        simpa using tileSum_mono t hr h12 hwt
      · rw [if_neg h1]
        simp only
        by_cases h2 : t.left < x + r2 ∧ x - r2 < t.right ∧ t.bottom < y + r2 ∧
            y - r2 < t.top
        · rw [if_pos h2]
          simpa using tileSum_nonneg t x y r2
        · rw [if_neg h2]

/-- Any-ness of a predicate over a list is invariant under permutation. -/
theorem perm_any_congr {α : Type} {l1 l2 : List α} (h : l1.Perm l2)
    (f : α → Bool) : l1.any f = l2.any f := by
  cases hb : l2.any f with
  | true =>
    rw [List.any_eq_true] at hb ⊢
    obtain ⟨x, hx, hfx⟩ := hb
    exact ⟨x, h.mem_iff.mpr hx, hfx⟩
  | false =>
    rw [List.any_eq_false] at hb ⊢
    intro x hx
    exact hb x (h.mem_iff.mp hx)

/-! ### Concrete demonstration tiles (metric CRS, identity transformer) -/

/-- A tile far away from the demonstration query point `(lat, lon) = (5, 5)`:
its bounding box fast-rejects. -/
def skipTile : Tile where
  crs := some "EPSG:32633"
  left := 100
  bottom := 100
  right := 110
  top := 110
  cells := [⟨100, 100, 110, 110, .num 9⟩]
  nodata := some (-200)
  tx := fun lon lat => (lon, lat)

/-- A tile whose single cell of value 7 covers the demonstration query
point. -/
def clipTile : Tile where
  crs := some "EPSG:32633"
  left := 0
  bottom := 0
  right := 10
  top := 10
  cells := [⟨0, 0, 10, 10, .num 7⟩]
  nodata := some (-200)
  tx := fun lon lat => (lon, lat)

/-- A tile with nodata `-200` whose grid holds only the nodata value and a
negative value. -/
def negTile : Tile where
  crs := some "EPSG:32633"
  left := 0
  bottom := 0
  right := 10
  top := 10
  cells := [⟨0, 0, 5, 10, .num (-200)⟩, ⟨5, 0, 10, 10, .num (-5)⟩]
  nodata := some (-200)
  tx := fun lon lat => (lon, lat)

/-- A tile that declares no nodata value; its only cell stores `-200`. -/
def defaultNodataTile : Tile where
  crs := some "EPSG:32633"
  left := 0
  bottom := 0
  right := 10
  top := 10
  cells := [⟨0, 0, 10, 10, .num (-200)⟩]
  nodata := none
  tx := fun lon lat => (lon, lat)

/-- A tile that declares no CRS. -/
def noCrsTile : Tile where
  crs := none
  left := 0
  bottom := 0
  right := 10
  top := 10
  cells := [⟨0, 0, 10, 10, .num 7⟩]
  nodata := some (-200)
  tx := fun lon lat => (lon, lat)

/-! ### The claims -/

/-- Claim C1: once every tile of `tile_paths` has been processed without a
fatal error, the call fails with `NoOverlapError` if and only if no tile
produced a successful (non-skipped) clip — the any-overlap flag, not the
magnitude of the total, determines success — and otherwise it returns the
accumulated total of the per-tile contributions. -/
theorem claim_C1 (l : List OpenResult) (lat lon r : ℚ)
    (h : ∀ p ∈ l, stepOk lat lon r p = true) :
    (pop_within_buffer l lat lon r = .error AggError.noOverlapError ↔
      l.any (clipped lat lon r) = false) ∧
    (l.any (clipped lat lon r) = true →
      pop_within_buffer l lat lon r = .ok ((l.map (contrib lat lon r)).sum)) := by
  constructor
  · rw [pop_noOverlap_iff]
    exact ⟨fun h2 => h2.2, fun h2 => ⟨h, h2⟩⟩
  · intro hany
    exact (pop_ok_iff l lat lon r _).mpr ⟨h, hany, rfl⟩

theorem claim_C1_witness :
    pop_within_buffer [OpenResult.ok skipTile] 5 5 3 =
      .error AggError.noOverlapError :=
  ((claim_C1 [OpenResult.ok skipTile] 5 5 3 (by
      intro p hp
      rw [List.mem_singleton] at hp
      subst hp
      norm_num [stepOk, tileStep, skipTile])).1).mpr (by
    norm_num [clipped, tileStep, skipTile])

/-- Claim C2: a window value enters the running total iff it differs from the
nodata sentinel, is finite, and is non-negative; in particular negative
values are excluded and the masked sum never drops below zero. -/
theorem claim_C2 (nodata : ℚ) (data : List Val) :
    (∀ v : Val, v ∈ data.filter (validCell nodata) ↔
        v ∈ data ∧ v.npNe nodata = true ∧ v.npIsfinite = true ∧
          v.npGe0 = true) ∧
    (∀ q : ℚ, q < 0 → Val.num q ∉ data.filter (validCell nodata)) ∧
    0 ≤ maskedSum nodata data := by
  refine ⟨?_, ?_, maskedSum_nonneg nodata data⟩
  · intro v
    rw [List.mem_filter]
    simp [validCell, Bool.and_eq_true, and_assoc]
  · intro q hq hmem
    rw [List.mem_filter] at hmem
    have hv := hmem.2
    simp only [validCell, Val.npNe, Val.npIsfinite, Val.npGe0, Bool.and_eq_true,
      decide_eq_true_eq] at hv
    linarith [hv.2]

theorem claim_C2_witness :
    Val.num (-5) ∉ ([Val.num (-5), Val.num 3].filter (validCell (-200))) :=
  (claim_C2 (-200) [Val.num (-5), Val.num 3]).2.1 (-5) (by norm_num)

/-- Claim C3: for a fixed well-formed tile set with non-negative populated
cells and a fixed query point, the total is monotone in the radius: whenever
`0 < r1 ≤ r2` and both calls succeed, the larger radius returns at least as
much. -/
theorem claim_C3 (l : List OpenResult) (lat lon r1 r2 q1 q2 : ℚ)
    (hr1 : 0 < r1) (h12 : r1 ≤ r2)
    (hwf : ∀ t : Tile, OpenResult.ok t ∈ l → t.wf)
    (hpos : ∀ t : Tile, OpenResult.ok t ∈ l → ∀ c ∈ t.cells, 0 ≤ c.val.toQ)
    (h1 : pop_within_buffer l lat lon r1 = .ok q1)
    (h2 : pop_within_buffer l lat lon r2 = .ok q2) :
    q1 ≤ q2 := by
  obtain ⟨_, _, rfl⟩ := (pop_ok_iff l lat lon r1 q1).mp h1
  obtain ⟨_, _, rfl⟩ := (pop_ok_iff l lat lon r2 q2).mp h2
  refine List.sum_le_sum ?_
  intro p hp
  exact contrib_mono lat lon (le_of_lt hr1) h12 p (fun t hpt => hwf t (hpt ▸ hp))

theorem claim_C3_witness : (7:ℚ) ≤ 7 :=
  claim_C3 [OpenResult.ok clipTile] 5 5 3 4 7 7 (by norm_num) (by norm_num)
    (by
      intro t ht
      simp only [List.mem_singleton, OpenResult.ok.injEq] at ht
      subst ht
      intro c hcmem
      simp only [clipTile, List.mem_singleton] at hcmem
      subst hcmem
      exact ⟨by norm_num, by norm_num⟩)
    (by
      intro t ht
      simp only [List.mem_singleton, OpenResult.ok.injEq] at ht
      subst ht
      intro c hcmem
      simp only [clipTile, List.mem_singleton] at hcmem
      subst hcmem
      norm_num [Val.toQ])
    (by
      norm_num [pop_within_buffer, popGo, tileStep, clipTile, tileSum,
        maskedSum, clipWindow, inWindow, cellCovered, clampQ, effNodata,
        validCell, Val.npNe, Val.npIsfinite, Val.npGe0, Val.toQ, fillVal])
    (by
      norm_num [pop_within_buffer, popGo, tileStep, clipTile, tileSum,
        maskedSum, clipWindow, inWindow, cellCovered, clampQ, effNodata,
        validCell, Val.npNe, Val.npIsfinite, Val.npGe0, Val.toQ, fillVal])

/-- Claim C4: summation over tiles is order-independent: a permutation of
`tile_paths` returns the same total, and raises `NoOverlapError` iff the
original does. -/
theorem claim_C4 (l1 l2 : List OpenResult) (lat lon r : ℚ) (hp : l1.Perm l2) :
    (∀ q : ℚ, pop_within_buffer l1 lat lon r = .ok q ↔
        pop_within_buffer l2 lat lon r = .ok q) ∧
    (pop_within_buffer l1 lat lon r = .error AggError.noOverlapError ↔
      pop_within_buffer l2 lat lon r = .error AggError.noOverlapError) := by
  have hsum : (l1.map (contrib lat lon r)).sum =
      (l2.map (contrib lat lon r)).sum :=
    (hp.map (contrib lat lon r)).sum_eq
  have hany : l1.any (clipped lat lon r) = l2.any (clipped lat lon r) :=
    perm_any_congr hp (clipped lat lon r)
  have hall : (∀ p ∈ l1, stepOk lat lon r p = true) ↔
      (∀ p ∈ l2, stepOk lat lon r p = true) := by
    constructor
    · intro h p hmem
      exact h p (hp.mem_iff.mpr hmem)
    · intro h p hmem
      exact h p (hp.mem_iff.mp hmem)
  constructor
  · intro q
    rw [pop_ok_iff, pop_ok_iff, hsum, hany, hall]
  · rw [pop_noOverlap_iff, pop_noOverlap_iff, hany, hall]

theorem claim_C4_witness :
    pop_within_buffer [OpenResult.ok skipTile, OpenResult.ok clipTile] 5 5 3 =
      .ok 7 :=
  ((claim_C4 [OpenResult.ok clipTile, OpenResult.ok skipTile]
      [OpenResult.ok skipTile, OpenResult.ok clipTile] 5 5 3
      (List.Perm.swap (OpenResult.ok skipTile) (OpenResult.ok clipTile) [])).1
    7).mp (by
      norm_num [pop_within_buffer, popGo, tileStep, clipTile, skipTile,
        tileSum, maskedSum, clipWindow, inWindow, cellCovered, clampQ,
        effNodata, validCell, Val.npNe, Val.npIsfinite, Val.npGe0, Val.toQ,
        fillVal])

/-- Claim C5: a tile whose reprojected buffer bounding box is disjoint from
the tile's bounds is skipped entirely: the loop body yields the skip outcome
(no clip, flag untouched), and inserting such a tile anywhere in the
sequence leaves the call's result unchanged. -/
theorem claim_C5 (t : Tile) (c0 : String) (hc : t.crs = some c0)
    (lat lon r : ℚ)
    (hdis : (t.tx lon lat).1 + r < t.left ∨ (t.tx lon lat).1 - r > t.right ∨
        (t.tx lon lat).2 + r < t.bottom ∨ (t.tx lon lat).2 - r > t.top) :
    tileStep (.ok t) lat lon r = .ok none ∧
    ∀ l1 l2 : List OpenResult,
      pop_within_buffer (l1 ++ .ok t :: l2) lat lon r =
        pop_within_buffer (l1 ++ l2) lat lon r := by
  have hstep : tileStep (.ok t) lat lon r = .ok none := by
    simp only [tileStep, hc]
    rw [if_pos hdis]
  refine ⟨hstep, ?_⟩
  intro l1 l2
  unfold pop_within_buffer
  rw [popGo_skip hstep l1 l2 0 false]

theorem claim_C5_witness : tileStep (OpenResult.ok skipTile) 5 5 3 = .ok none :=
  (claim_C5 skipTile "EPSG:32633" rfl 5 5 3
    (Or.inl (by norm_num [skipTile]))).1

/-- Claim C6: a tile that declares no CRS makes the call fail with
`MissingCRSError` as soon as it is reached, whatever its geometry and
whatever tiles follow it. -/
theorem claim_C6 (t : Tile) (hc : t.crs = none) (l1 l2 : List OpenResult)
    (lat lon r : ℚ) (h1 : ∀ p ∈ l1, stepOk lat lon r p = true) :
    pop_within_buffer (l1 ++ OpenResult.ok t :: l2) lat lon r =
      .error AggError.missingCRSError := by
  unfold pop_within_buffer
  rw [popGo_append lat lon r l1 h1]
  simp [popGo, tileStep, hc]

theorem claim_C6_witness :
    pop_within_buffer [OpenResult.ok noCrsTile] 5 5 3 =
      .error AggError.missingCRSError :=
  claim_C6 noCrsTile rfl [] [] 5 5 3 (fun p hp => absurd hp (List.not_mem_nil p))

/-- Claim C7: an unreadable tile path makes the call fail immediately with
`TileOpenError`: tiles after it are never processed and no total is
returned. -/
theorem claim_C7 (l1 l2 : List OpenResult) (lat lon r : ℚ)
    (h1 : ∀ p ∈ l1, stepOk lat lon r p = true) :
    pop_within_buffer (l1 ++ OpenResult.openFail :: l2) lat lon r =
      .error AggError.tileOpenError := by
  unfold pop_within_buffer
  rw [popGo_append lat lon r l1 h1]
  simp [popGo, tileStep]

theorem claim_C7_witness :
    pop_within_buffer [OpenResult.openFail] 5 5 3 =
      .error AggError.tileOpenError :=
  claim_C7 [] [] 5 5 3 (fun p hp => absurd hp (List.not_mem_nil p))

/-- Claim C8: every successful call returns a non-negative total, and the
single-tile scenario with nodata `-200` and a grid holding only nodata and
negative values inside the buffer succeeds with total exactly `0.0`. -/
theorem claim_C8 :
    (∀ (l : List OpenResult) (lat lon r q : ℚ),
        pop_within_buffer l lat lon r = .ok q → 0 ≤ q) ∧
    pop_within_buffer [OpenResult.ok negTile] 5 5 3 = .ok 0 := by
  constructor
  · intro l lat lon r q h
    obtain ⟨_, _, rfl⟩ := (pop_ok_iff l lat lon r q).mp h
    refine List.sum_nonneg ?_
    intro x hx
    obtain ⟨p, _, rfl⟩ := List.mem_map.mp hx
    exact contrib_nonneg lat lon r p
  · norm_num [pop_within_buffer, popGo, tileStep, negTile, tileSum, maskedSum,
      clipWindow, inWindow, cellCovered, clampQ, effNodata, validCell,
      Val.npNe, Val.npIsfinite, Val.npGe0, Val.toQ, fillVal]

theorem claim_C8_witness : (0:ℚ) ≤ 0 :=
  claim_C8.1 [OpenResult.ok negTile] 5 5 3 0 claim_C8.2

/-- Claim C9: when a tile declares no nodata value the fixed default
sentinel `-200.0` is substituted, so a window value of exactly `-200.0` is
excluded from the total for such a tile. -/
theorem claim_C9 (t : Tile) (h : t.nodata = none) :
    effNodata t = -200 ∧
    validCell (effNodata t) (Val.num (-200)) = false ∧
    ∀ cx cy r : ℚ,
      Val.num (-200) ∉ (clipWindow t cx cy r).filter (validCell (effNodata t)) := by
  have he : effNodata t = -200 := by simp [effNodata, h]
  have hv : validCell (effNodata t) (Val.num (-200)) = false := by
    rw [he]
    simp [validCell, Val.npNe]
  refine ⟨he, hv, ?_⟩
  intro cx cy r hmem
  rw [List.mem_filter] at hmem
  have hv2 := hmem.2
  rw [hv] at hv2
  exact absurd hv2 (by simp)

theorem claim_C9_witness : effNodata defaultNodataTile = -200 :=
  (claim_C9 defaultNodataTile rfl).1

/-- Claim C10: an empty `tile_paths` sequence is not a distinct error: the
loop never runs, the overlap flag stays false, and the call raises the very
same `NoOverlapError` as the genuine no-overlap case. -/
theorem claim_C10 (lat lon r : ℚ) :
    pop_within_buffer [] lat lon r = .error AggError.noOverlapError := rfl

end FuPop
